import Mathlib

/-!
Verification of the sales/stock/payment core of the store-admin dashboard.

The repository is a Remix front-end; the authoritative mutation logic for
stock, sale status and payments lives behind the REST API it calls
(`~/lib/api.server`).  Definitions below are therefore of two kinds:

* embeddings of front-end computations that are present in the source
  (line-item math, permission flags, price snapshots, edit-route guards), and
* models of the backend operations that the source only invokes, written
  from the specification (each such definition carries a doc comment
  starting with `Modelled from the spec:`).
-/

namespace StoreAdmin

/-- Per-product stock record: `stock` and `reservedStock` as they appear on
the Product entity (`product.stock`, `product.reservedStock`).  Integers,
mirroring the integer stock counters of the data model. -/
structure StockState where
  stock : Int
  reserved : Int
  deriving Repr, DecidableEq

/-- Error kinds of the Stock Ledger. -/
inductive StockError
  | insufficientStock
  deriving Repr, DecidableEq

/-- Modelled from the spec: Stock Ledger `reserve(productId, qty)` — the
operation itself lives in the backend API, only its callers are in src/.
Fails with `InsufficientStock` if `available < qty` where
`available = stock - reservedStock`; otherwise increments `reservedStock`. -/
def reserve (s : StockState) (qty : Nat) : Except StockError StockState :=
  if s.stock - s.reserved < (qty : Int) then .error .insufficientStock
  else .ok { s with reserved := s.reserved + qty }

/-- Modelled from the spec: Stock Ledger `release(productId, qty)` —
decrements `reservedStock` by `qty`, floored at 0. -/
def release (s : StockState) (qty : Nat) : StockState :=
  { s with reserved := max (s.reserved - qty) 0 }

/-- Modelled from the spec: Stock Ledger `confirmDeduction(productId, qty)` —
decrements both `stock` and `reservedStock` by `qty`; fails with
`InsufficientStock` if `stock < qty`. -/
def confirmDeduction (s : StockState) (qty : Nat) : Except StockError StockState :=
  if s.stock < (qty : Int) then .error .insufficientStock
  else .ok { stock := s.stock - qty, reserved := s.reserved - qty }

/-- Modelled from the spec: Stock Ledger `restore(productId, qty)` —
increments `stock` by `qty` (used when a paid/processing/shipped sale is
cancelled). -/
def restore (s : StockState) (qty : Nat) : StockState :=
  { s with stock := s.stock + qty }

/-- A Stock Ledger operation on a single product. -/
inductive LedgerOp
  | reserve (qty : Nat)
  | release (qty : Nat)
  | confirmDeduction (qty : Nat)
  | restore (qty : Nat)
  deriving Repr, DecidableEq

/-- Apply one ledger operation; a failing operation leaves the product
state unchanged (validation happens before any mutation). -/
def applyOp (s : StockState) (op : LedgerOp) : StockState :=
  match op with
  | .reserve q =>
      match reserve s q with
      | .ok s' => s'
      | .error _ => s
  | .release q => release s q
  | .confirmDeduction q =>
      match confirmDeduction s q with
      | .ok s' => s'
      | .error _ => s
  | .restore q => restore s q

/-- Run a sequence of ledger operations on one product. -/
def runOps (s : StockState) (ops : List LedgerOp) : StockState :=
  ops.foldl applyOp s

/-- Inductive invariant of the stock ledger: the stock counter is
non-negative and the reservation never exceeds it. -/
def StockWF (s : StockState) : Prop :=
  0 ≤ s.stock ∧ s.reserved ≤ s.stock

/-- Sale line item as built by the front-end `handleAddProduct` functions
(fields `productId`, `sku`, `productName`, `quantity`, `unitPrice`,
`discount`, `subtotal`).  Numeric fields are rationals, standing for the
exact values of the JavaScript number arithmetic. -/
structure SaleItemQ where
  productId : Nat
  sku : String
  productName : String
  quantity : ℚ
  unitPrice : ℚ
  discount : ℚ
  subtotal : ℚ
  deriving Repr, DecidableEq

/-- From `SaleItemsList` / `NewReservation`:
`items.reduce((sum, item) => sum + item.subtotal, 0)`. -/
def itemsSubtotal (items : List SaleItemQ) : ℚ :=
  items.foldl (fun sum it => sum + it.subtotal) 0

/-- From `NewReservation` (routes, lines 296-297):
`total = itemsSubtotal - generalDiscount + shippingCost`. -/
def orderTotal (items : List SaleItemQ) (generalDiscount shippingCost : ℚ) : ℚ :=
  itemsSubtotal items - generalDiscount + shippingCost

/-- From `SaleItemsList` (line 190): `tax = total - (total / 1.18)` —
IGV extraction from a tax-inclusive total. -/
def extractTax (total : ℚ) : ℚ :=
  total - total / 1.18

/-- Error kind of the pricing calculator. -/
inductive CalcError
  | invalidInput
  deriving Repr, DecidableEq

/-- Modelled from the spec: the Pricing Calculator `lineSubtotal` contract —
the repository computes `price * qty * (1 - discount/100)` inline in its
form components (`ProductSelector`, `handleAddProduct`,
`handleUpdateQuantity`) but has no standalone validated function; §4.1
constrains `discountPct` to [0,100] and `quantity` to positive integers,
failing with `InvalidInput` otherwise.  A rational `quantity` is a positive
integer exactly when its denominator is 1 and it is at least 1. -/
def lineSubtotal (unitPrice quantity discountPct : ℚ) : Except CalcError ℚ :=
  if 0 ≤ discountPct ∧ discountPct ≤ 100 then
    if quantity.den = 1 ∧ 1 ≤ quantity then
      .ok (unitPrice * quantity * (1 - discountPct / 100))
    else .error .invalidInput
  else .error .invalidInput

/-- Product as consumed by the add-product handlers: regular `price` and
optional `offerPrice`. -/
structure ProductRec where
  pid : Nat
  sku : String
  pname : String
  price : ℚ
  offerPrice : Option ℚ
  deriving Repr, DecidableEq

/-- From `NewReservation.handleAddProduct` (routes, line 264):
`(product.offerPrice && product.offerPrice > 0) ? product.offerPrice :
product.price`.  A missing or non-positive offer price falls back to the
regular price (`0` is falsy in JavaScript and also fails `> 0`). -/
def effectivePrice (p : ProductRec) : ℚ :=
  match p.offerPrice with
  | some v => if 0 < v then v else p.price
  | none => p.price

/-- From `NewReservation.handleAddProduct` (routes, lines 263-280): the new
line item snapshots the effective price and computes
`subtotal = priceAfterDiscount * quantity`. -/
def newReservationAddItem (p : ProductRec) (quantity discount : ℚ) : SaleItemQ :=
  { productId := p.pid
    sku := p.sku
    productName := p.pname
    quantity := quantity
    unitPrice := effectivePrice p
    discount := discount
    subtotal := effectivePrice p * (1 - discount / 100) * quantity }

/-- From `AddProducts.handleAddProduct` (sales add-products route, lines
101-117): the linked-sale flow always snapshots the regular
`product.price`. -/
def addProductsAddItem (p : ProductRec) (quantity discount : ℚ) : SaleItemQ :=
  { productId := p.pid
    sku := p.sku
    productName := p.pname
    quantity := quantity
    unitPrice := p.price
    discount := discount
    subtotal := p.price * (1 - discount / 100) * quantity }

/-- The `PaymentsSummary` interface of `PaymentsList` /
the sale-detail loader. -/
structure PaymentsSummary where
  totalPayments : ℚ
  totalRefunds : ℚ
  netPaid : ℚ
  saleTotal : ℚ
  balance : ℚ
  deriving Repr, DecidableEq

/-- From `SaleDetail` (sales detail route, line 185):
`["reservation", "pending"].includes(sale.status) && paymentsSummary.balance > 0`;
the array membership test is unfolded into the equality checks. -/
def canAddPayment (status : String) (summary : PaymentsSummary) : Bool :=
  (status == "reservation" || status == "pending") && decide (0 < summary.balance)

/-- From `SaleDetail` (line 186):
`["reservation", "pending", "cancelled"].includes(sale.status) && paymentsSummary.netPaid > 0`. -/
def canAddRefund (status : String) (summary : PaymentsSummary) : Bool :=
  (status == "reservation" || status == "pending" || status == "cancelled") &&
    decide (0 < summary.netPaid)

/-- From `SaleDetail` (line 187):
`["reservation", "pending"].includes(sale.status)`. -/
def canDeletePayment (status : String) : Bool :=
  status == "reservation" || status == "pending"

/-- From `SaleDetail` (line 175):
`sale.status === "quote" || sale.status === "reservation"` — whether the
Edit button is offered. -/
def canEditSale (status : String) : Bool :=
  status == "quote" || status == "reservation"

/-- From the edit-sale route loader (lines 179-182): the page serving the
editable line-items/discount/shipping form is gated by
`if (sale.status !== "quote") throw 403 "Only quotes can be edited"`. -/
def editSaleLoaderAllows (status : String) : Bool :=
  status == "quote"

/-- Sale record with the fields the edit flow can touch. -/
structure SaleRec where
  status : String
  items : List SaleItemQ
  discount : ℚ
  shippingCost : ℚ
  shippingMethod : String
  deriving Repr, DecidableEq

/-- The mutable fields submitted by the edit form. -/
structure EditPayload where
  items : List SaleItemQ
  discount : ℚ
  shippingCost : ℚ
  shippingMethod : String
  deriving Repr, DecidableEq

/-- Overwrite the editable fields of a sale with the form payload
(the update performed through `api.updateSale` when the edit screen is
reachable). -/
def applyEdit (sale : SaleRec) (p : EditPayload) : SaleRec :=
  { sale with
    items := p.items
    discount := p.discount
    shippingCost := p.shippingCost
    shippingMethod := p.shippingMethod }

/-- The edit flow: the loader guard from the edit route decides whether the
edit form (and hence the `updateSale` mutation) is reachable; a rejected
status returns HTTP 403 and the sale is left unchanged. -/
def editFlow (sale : SaleRec) (p : EditPayload) : Except Nat Unit × SaleRec :=
  if editSaleLoaderAllows sale.status then (.ok (), applyEdit sale p)
  else (.error 403, sale)

/-- Payment Ledger error kinds (spec §4.4 / §7). -/
inductive PayError
  | invalidAmount
  | exceedsBalance
  | exceedsNetPaid
  deriving Repr, DecidableEq

/-- One ledger entry: an amount and whether it is a `refund`-type entry
(`payment` otherwise). -/
structure PayEntry where
  amount : ℚ
  isRefund : Bool
  deriving Repr, DecidableEq

/-- Payment ledger of one sale: the sale total and the entry list. -/
structure PayLedger where
  saleTotal : ℚ
  entries : List PayEntry
  deriving Repr, DecidableEq

/-- Sum of `payment`-type entry amounts. -/
def totalPaymentsOf (l : PayLedger) : ℚ :=
  ((l.entries.filter fun e => !e.isRefund).map PayEntry.amount).sum

/-- Sum of `refund`-type entry amounts. -/
def totalRefundsOf (l : PayLedger) : ℚ :=
  ((l.entries.filter fun e => e.isRefund).map PayEntry.amount).sum

/-- `netPaid = totalPayments - totalRefunds` (PaymentsSummary, spec §3). -/
def netPaidOf (l : PayLedger) : ℚ :=
  totalPaymentsOf l - totalRefundsOf l

/-- `balance = saleTotal - netPaid` (PaymentsSummary, spec §3). -/
def balanceOf (l : PayLedger) : ℚ :=
  l.saleTotal - netPaidOf l

/-- Modelled from the spec: Payment Ledger `addPayment` — the operation
lives in the backend API (`api.addPayment` is only invoked from the sale
detail route); §4.4: fails `InvalidAmount` if `amount ≤ 0`, fails
`ExceedsBalance` if `amount >` current balance, otherwise appends a
`payment`-type entry. -/
def addPayment (l : PayLedger) (amount : ℚ) : Except PayError PayLedger :=
  if amount ≤ 0 then .error .invalidAmount
  else if balanceOf l < amount then .error .exceedsBalance
  else .ok { l with entries := l.entries ++ [⟨amount, false⟩] }

/-- Modelled from the spec: Payment Ledger `addRefund` — fails
`InvalidAmount` if `amount ≤ 0`, fails `ExceedsNetPaid` if `amount >`
current `netPaid`, otherwise appends a `refund`-type entry. -/
def addRefund (l : PayLedger) (amount : ℚ) : Except PayError PayLedger :=
  if amount ≤ 0 then .error .invalidAmount
  else if netPaidOf l < amount then .error .exceedsNetPaid
  else .ok { l with entries := l.entries ++ [⟨amount, true⟩] }

/-- A payment-ledger request. -/
inductive PayOp
  | pay (amount : ℚ)
  | refund (amount : ℚ)
  deriving Repr, DecidableEq

/-- Apply one ledger request; a failing request leaves the ledger
unchanged. -/
def applyPayOp (l : PayLedger) (op : PayOp) : PayLedger :=
  match op with
  | .pay a =>
      match addPayment l a with
      | .ok l' => l'
      | .error _ => l
  | .refund a =>
      match addRefund l a with
      | .ok l' => l'
      | .error _ => l

/-- Run a sequence of payment/refund requests. -/
def runPayOps (l : PayLedger) (ops : List PayOp) : PayLedger :=
  ops.foldl applyPayOp l

/-- A sale document as consumed by the aggregator: its sale number, line
items and totals fields. -/
structure SaleDoc where
  saleNumber : String
  items : List SaleItemQ
  subtotal : ℚ
  discount : ℚ
  shippingCost : ℚ
  total : ℚ
  deriving Repr, DecidableEq

/-- The combined receipt view built by the aggregator. -/
structure AggregatedSale where
  items : List SaleItemQ
  subtotal : ℚ
  discount : ℚ
  shippingCost : ℚ
  total : ℚ
  saleNumbers : List String
  deriving Repr, DecidableEq

/-- The combined view starts from the parent sale's items and totals. -/
def aggInit (parent : SaleDoc) : AggregatedSale :=
  { items := parent.items
    subtotal := parent.subtotal
    discount := parent.discount
    shippingCost := parent.shippingCost
    total := parent.total
    saleNumbers := [parent.saleNumber] }

/-- Fold one linked sale into the combined view: items are concatenated and
each totals field is summed independently
(subtotal+subtotal, discount+discount, ...). -/
def aggAdd (acc : AggregatedSale) (s : SaleDoc) : AggregatedSale :=
  { items := acc.items ++ s.items
    subtotal := acc.subtotal + s.subtotal
    discount := acc.discount + s.discount
    shippingCost := acc.shippingCost + s.shippingCost
    total := acc.total + s.total
    saleNumbers := acc.saleNumbers ++ [s.saleNumber] }

/-- Modelled from the spec: Linked Sale Aggregator `aggregate` (§4.5) — the
aggregated view for combined receipts/printing; the repository fetches
parent and linked sales (`api.getSaleWithLinked`) and displays them, while
the combining projection itself lives behind the API. -/
def aggregate (parent : SaleDoc) (linked : List SaleDoc) : AggregatedSale :=
  linked.foldl aggAdd (aggInit parent)

/-- Sale lifecycle statuses (spec §4.3 / the `status` enum strings). -/
inductive SaleStatus
  | quote
  | reservation
  | pending
  | paid
  | processing
  | shipped
  | delivered
  | cancelled
  | rejected
  deriving Repr, DecidableEq

/-- The status strings as persisted (`quote`, `reservation`, ...). -/
def statusString : SaleStatus → String
  | .quote => "quote"
  | .reservation => "reservation"
  | .pending => "pending"
  | .paid => "paid"
  | .processing => "processing"
  | .shipped => "shipped"
  | .delivered => "delivered"
  | .cancelled => "cancelled"
  | .rejected => "rejected"

/-- Sale State Machine actions (the `intent` values posted by the sale
detail screen; `update-status` is split into its three concrete uses). -/
inductive SmAction
  | convertToPending
  | confirmReservation
  | cancelReservation
  | markAsPaid (paymentMethod : Option String)
  | startProcessing
  | markShipped
  | markDelivered
  | cancel
  deriving Repr, DecidableEq

/-- Sale State Machine error kinds (spec §4.3 / §7). -/
inductive SmError
  | invalidTransition
  | insufficientStock
  | missingPaymentMethod
  deriving Repr, DecidableEq

/-- State acted on by one sale's transitions: the sale status, its line
items as (productId, quantity) pairs, and the per-product stock records. -/
structure SaleMachineState where
  status : SaleStatus
  items : List (Nat × Nat)
  stocks : Nat → StockState

/-- Point update of the per-product stock map. -/
def updateAt (stocks : Nat → StockState) (pid : Nat) (f : StockState → StockState) :
    Nat → StockState :=
  fun p => if p = pid then f (stocks p) else stocks p

/-- Modelled from the spec: per-item availability check of
`checkAvailability` — the item has stock when `available ≥ qty`. -/
def itemHasStock (stocks : Nat → StockState) (pq : Nat × Nat) : Bool :=
  decide ((pq.2 : Int) ≤ (stocks pq.1).stock - (stocks pq.1).reserved)

/-- Modelled from the spec: Stock Ledger `checkAvailability(items)` —
read-only; reports fully available when every item has stock
(`api.checkStockAvailability` is only invoked from the sale detail
loader). -/
def checkAvailability (stocks : Nat → StockState) (items : List (Nat × Nat)) : Bool :=
  items.all (itemHasStock stocks)

/-- Reserve each line item's quantity (quote → pending conversion). -/
def reserveItems (stocks : Nat → StockState) (items : List (Nat × Nat)) :
    Nat → StockState :=
  items.foldl (fun acc pq => updateAt acc pq.1 (fun s => applyOp s (.reserve pq.2))) stocks

/-- Release each line item's quantity (cancellation of reserved stock). -/
def releaseItems (stocks : Nat → StockState) (items : List (Nat × Nat)) :
    Nat → StockState :=
  items.foldl (fun acc pq => updateAt acc pq.1 (fun s => applyOp s (.release pq.2))) stocks

/-- Restore each line item's quantity (cancellation after deduction). -/
def restoreItems (stocks : Nat → StockState) (items : List (Nat × Nat)) :
    Nat → StockState :=
  items.foldl (fun acc pq => updateAt acc pq.1 (fun s => applyOp s (.restore pq.2))) stocks

/-- Confirm the deduction of each line item's quantity (marking paid). -/
def deductItems (stocks : Nat → StockState) (items : List (Nat × Nat)) :
    Nat → StockState :=
  items.foldl (fun acc pq => updateAt acc pq.1 (fun s => applyOp s (.confirmDeduction pq.2))) stocks

/-- The transition table of spec §4.3: which (status, action) pairs are
listed.  `mark-as-paid` is listed from `pending` regardless of the payment
method (the method is a business precondition checked after the status). -/
def allowedPair : SaleStatus → SmAction → Bool
  | .quote, .convertToPending => true
  | .reservation, .confirmReservation => true
  | .reservation, .cancelReservation => true
  | .pending, .markAsPaid _ => true
  | .paid, .startProcessing => true
  | .processing, .markShipped => true
  | .shipped, .markDelivered => true
  | .quote, .cancel => true
  | .pending, .cancel => true
  | .paid, .cancel => true
  | .processing, .cancel => true
  | .shipped, .cancel => true
  | _, _ => false

/-- Modelled from the spec: the Sale State Machine step (§4.3) — the
transitions execute in the backend API; the routes only post intents.
Status is validated first (`InvalidTransition` with no side effects), then
business preconditions, then the ledger mutations.  `balance` is the
Payment Ledger balance consulted by `confirm-reservation`. -/
def smStep (st : SaleMachineState) (balance : ℚ) (a : SmAction) :
    Except SmError Unit × SaleMachineState :=
  match a, st.status with
  | .convertToPending, .quote =>
      if checkAvailability st.stocks st.items then
        (.ok (), { st with status := .pending, stocks := reserveItems st.stocks st.items })
      else (.error .insufficientStock, st)
  | .confirmReservation, .reservation =>
      if balance ≤ 0 then
        (.ok (), { st with status := .paid, stocks := deductItems st.stocks st.items })
      else (.ok (), { st with status := .pending })
  | .cancelReservation, .reservation =>
      (.ok (), { st with status := .cancelled, stocks := releaseItems st.stocks st.items })
  | .markAsPaid pm, .pending =>
      match pm with
      | none => (.error .missingPaymentMethod, st)
      | some _ =>
          (.ok (), { st with status := .paid, stocks := deductItems st.stocks st.items })
  | .startProcessing, .paid => (.ok (), { st with status := .processing })
  | .markShipped, .processing => (.ok (), { st with status := .shipped })
  | .markDelivered, .shipped => (.ok (), { st with status := .delivered })
  | .cancel, .quote =>
      (.ok (), { st with status := .cancelled, stocks := releaseItems st.stocks st.items })
  | .cancel, .pending =>
      (.ok (), { st with status := .cancelled, stocks := releaseItems st.stocks st.items })
  | .cancel, .paid =>
      (.ok (), { st with status := .cancelled, stocks := restoreItems st.stocks st.items })
  | .cancel, .processing =>
      (.ok (), { st with status := .cancelled, stocks := restoreItems st.stocks st.items })
  | .cancel, .shipped =>
      (.ok (), { st with status := .cancelled, stocks := restoreItems st.stocks st.items })
  | _, _ => (.error .invalidTransition, st)

theorem stockWF_applyOp (s : StockState) (op : LedgerOp) (h : StockWF s) :
    StockWF (applyOp s op) := by
  obtain ⟨hst, hres⟩ := h
  cases op with
  | reserve q =>
      by_cases hq : s.stock - s.reserved < (q : Int)
      · simpa [applyOp, reserve, hq, StockWF] using ⟨hst, hres⟩
      · simp only [applyOp, reserve, hq, if_false, StockWF]
        omega
  | release q =>
      simp only [applyOp, release, StockWF]
      omega
  | confirmDeduction q =>
      by_cases hq : s.stock < (q : Int)
      · simpa [applyOp, confirmDeduction, hq, StockWF] using ⟨hst, hres⟩
      · simp only [applyOp, confirmDeduction, hq, if_false, StockWF]
        omega
  | restore q =>
      simp only [applyOp, restore, StockWF]
      omega

theorem stockWF_runOps (s : StockState) (ops : List LedgerOp) (h : StockWF s) :
    StockWF (runOps s ops) := by
  induction ops generalizing s with
  | nil => simpa [runOps] using h
  | cons op rest ih =>
      simpa [runOps] using ih (applyOp s op) (stockWF_applyOp s op h)

/-- Claim C1: for every product and every sequence of Stock Ledger
operations (reserve, release, confirmDeduction, restore), after every
operation `reservedStock ≤ stock` and `available = stock - reservedStock ≥ 0`.
(Quantifying over all operation sequences covers the state after each
operation of any given sequence, since every such intermediate state is the
result of running an operation sequence.) -/
theorem stock_ledger_invariant (init : StockState) (ops : List LedgerOp)
    (hstock : 0 ≤ init.stock) (_hres0 : 0 ≤ init.reserved)
    (hres : init.reserved ≤ init.stock) :
    (runOps init ops).reserved ≤ (runOps init ops).stock ∧
      0 ≤ (runOps init ops).stock - (runOps init ops).reserved := by
  have h := stockWF_runOps init ops ⟨hstock, hres⟩
  obtain ⟨h1, h2⟩ := h
  exact ⟨h2, by omega⟩

/-- Witness for C1: a concrete product with stock 10 run through
reserve 3, confirmDeduction 3, restore 3 keeps the invariant. -/
theorem stock_ledger_invariant_witness :
    (0 : Int) ≤ (StockState.mk 10 0).stock ∧
      (0 : Int) ≤ (StockState.mk 10 0).reserved ∧
      (StockState.mk 10 0).reserved ≤ (StockState.mk 10 0).stock ∧
      ((runOps (StockState.mk 10 0)
          [.reserve 3, .confirmDeduction 3, .restore 3]).reserved ≤
        (runOps (StockState.mk 10 0)
          [.reserve 3, .confirmDeduction 3, .restore 3]).stock ∧
        0 ≤ (runOps (StockState.mk 10 0)
          [.reserve 3, .confirmDeduction 3, .restore 3]).stock -
          (runOps (StockState.mk 10 0)
            [.reserve 3, .confirmDeduction 3, .restore 3]).reserved) :=
  ⟨by decide, by decide, by decide,
    stock_ledger_invariant (StockState.mk 10 0)
      [.reserve 3, .confirmDeduction 3, .restore 3]
      (by decide) (by decide) (by decide)⟩

theorem itemsSubtotal_foldl (items : List SaleItemQ) (a : ℚ) :
    items.foldl (fun sum it => sum + it.subtotal) a =
      a + (items.map SaleItemQ.subtotal).sum := by
  induction items generalizing a with
  | nil => simp
  | cons it rest ih =>
      simp [List.foldl_cons, ih, add_assoc]

/-- Claim C3: for every list of line items, general discount and shipping
cost, the computed order satisfies `subtotal = Σ line subtotals`,
`total = subtotal - generalDiscount + shippingCost` and
`tax = total - total/1.18`, within floating-point tolerance `1e-9` (the
rational embedding computes these identities exactly, so the difference is
zero). -/
theorem order_total_identity (items : List SaleItemQ) (d s : ℚ) :
    itemsSubtotal items = (items.map SaleItemQ.subtotal).sum ∧
      |orderTotal items d s - (itemsSubtotal items - d + s)| ≤ 1 / 1000000000 ∧
      |extractTax (orderTotal items d s) -
          (orderTotal items d s - orderTotal items d s / 1.18)| ≤ 1 / 1000000000 := by
  refine ⟨?_, ?_, ?_⟩
  · simpa [itemsSubtotal] using itemsSubtotal_foldl items 0
  · simp only [orderTotal, sub_self, abs_zero]
    norm_num
  · simp only [extractTax, sub_self, abs_zero]
    norm_num

/-- Claim C7: `lineSubtotal(unitPrice, quantity, discountPct)` equals
`unitPrice * quantity * (1 - discountPct/100)` for every `discountPct` in
[0,100] and every positive integer quantity; for any quantity that is not a
positive integer, or any `discountPct` outside [0,100], it fails with
`InvalidInput`. -/
theorem lineSubtotal_spec (unitPrice quantity discountPct : ℚ) :
    ((0 ≤ discountPct ∧ discountPct ≤ 100) → (quantity.den = 1 ∧ 1 ≤ quantity) →
        lineSubtotal unitPrice quantity discountPct =
          .ok (unitPrice * quantity * (1 - discountPct / 100))) ∧
      (¬(0 ≤ discountPct ∧ discountPct ≤ 100) ∨ ¬(quantity.den = 1 ∧ 1 ≤ quantity) →
        lineSubtotal unitPrice quantity discountPct = .error .invalidInput) := by
  constructor
  · intro hd hq
    simp [lineSubtotal, hd, hq]
  · intro h
    rcases h with h | h
    · simp [lineSubtotal, h]
    · by_cases hd : 0 ≤ discountPct ∧ discountPct ≤ 100 <;>
        simp [lineSubtotal, hd, h]

/-- Witness for C7: `lineSubtotal 10 3 20 = 24`, and a fractional quantity
of `1/2` is rejected with `InvalidInput`. -/
theorem lineSubtotal_spec_witness :
    lineSubtotal 10 3 20 = .ok 24 ∧
      lineSubtotal 10 (1 / 2) 20 = .error .invalidInput := by
  constructor
  · have h := (lineSubtotal_spec 10 3 20).1 (by norm_num) (by norm_num [Rat.den])
    rw [h]
    norm_num
  · exact (lineSubtotal_spec 10 (1 / 2) 20).2 (Or.inr (by norm_num))

/-- Claim C9: when a product is added to a new reservation, the snapshotted
`unitPrice` is the product's `offerPrice` whenever it is present and greater
than 0, and the regular `price` otherwise, with the line subtotal computed
from that effective price; the linked-sale add-products flow always
snapshots the regular price. -/
theorem reservation_price_snapshot (p : ProductRec) (q d : ℚ) :
    (∀ v, p.offerPrice = some v → 0 < v →
        (newReservationAddItem p q d).unitPrice = v) ∧
      (∀ v, p.offerPrice = some v → v ≤ 0 →
        (newReservationAddItem p q d).unitPrice = p.price) ∧
      (p.offerPrice = none → (newReservationAddItem p q d).unitPrice = p.price) ∧
      (newReservationAddItem p q d).subtotal =
        (newReservationAddItem p q d).unitPrice * (1 - d / 100) * q ∧
      (addProductsAddItem p q d).unitPrice = p.price ∧
      (addProductsAddItem p q d).subtotal =
        (addProductsAddItem p q d).unitPrice * (1 - d / 100) * q := by
  refine ⟨?_, ?_, ?_, rfl, rfl, rfl⟩
  · intro v hv h0
    simp [newReservationAddItem, effectivePrice, hv, h0]
  · intro v hv hle
    simp [newReservationAddItem, effectivePrice, hv, not_lt.mpr hle]
  · intro hv
    simp [newReservationAddItem, effectivePrice, hv]

/-- Witness for C9: a product with price 100 and offer price 80 is
snapshotted at 80 by the reservation flow and at 100 by the linked-sale
flow. -/
theorem reservation_price_snapshot_witness :
    (newReservationAddItem ⟨1, "SKU-1", "P", 100, some 80⟩ 2 10).unitPrice = 80 ∧
      (addProductsAddItem ⟨1, "SKU-1", "P", 100, some 80⟩ 2 10).unitPrice = 100 :=
  ⟨(reservation_price_snapshot ⟨1, "SKU-1", "P", 100, some 80⟩ 2 10).1 80 rfl
      (by norm_num),
    (reservation_price_snapshot ⟨1, "SKU-1", "P", 100, some 80⟩ 2 10).2.2.2.2.1⟩

/-- Claim C10: the add-refund action is offered exactly when the sale's
status is `reservation`, `pending` or `cancelled` and `netPaid > 0` — so a
refund can be recorded against a cancelled sale — whereas add-payment
additionally requires `balance > 0` and, like delete-payment, is offered
only for `reservation` or `pending`, never on a cancelled sale. -/
theorem refund_on_cancelled_permissions (status : String) (summary : PaymentsSummary) :
    (canAddRefund status summary = true ↔
        ((status = "reservation" ∨ status = "pending" ∨ status = "cancelled") ∧
          0 < summary.netPaid)) ∧
      (canAddPayment status summary = true ↔
        ((status = "reservation" ∨ status = "pending") ∧ 0 < summary.balance)) ∧
      canAddPayment "cancelled" summary = false ∧
      canDeletePayment "cancelled" = false ∧
      (canDeletePayment status = true ↔
        (status = "reservation" ∨ status = "pending")) := by
  refine ⟨?_, ?_, ?_, by decide, ?_⟩
  · simp [canAddRefund, Bool.and_eq_true, Bool.or_eq_true, beq_iff_eq,
      decide_eq_true_eq, or_assoc]
  · simp [canAddPayment, Bool.and_eq_true, Bool.or_eq_true, beq_iff_eq,
      decide_eq_true_eq]
  · simp [canAddPayment]
  · simp [canDeletePayment, Bool.or_eq_true, beq_iff_eq]

/-- Counterexample to claim C6 as stated: the claim says line items,
discounts and shipping are mutable exactly for `quote` or `reservation`
status, but the only edit flow in the code (the edit-sale route) is gated by
a loader that admits only `quote`: a `reservation` sale — although the
sale-detail screen offers its Edit button (`canEditSale`) — is rejected with
HTTP 403 and left unchanged. -/
theorem editability_counterexample :
    canEditSale "reservation" = true ∧
      editSaleLoaderAllows "reservation" = false ∧
      editFlow ⟨"reservation", [], 0, 0, ""⟩ ⟨[], 5, 7, "olva"⟩ =
        (.error 403, ⟨"reservation", [], 0, 0, ""⟩) := by
  refine ⟨by decide, by decide, ?_⟩
  simp [editFlow, editSaleLoaderAllows, applyEdit]

/-- Claim C6 (amended): the sale-detail screen offers the Edit action when
the status is `quote` or `reservation`, but the edit flow's loader admits
only `quote`; an edit attempted against a sale in any status other than
`quote` (including `reservation`) is rejected with 403 without modifying the
sale, and a `quote` sale's items/discount/shipping are overwritten by the
submitted payload. -/
theorem editability_guard (sale : SaleRec) (p : EditPayload) :
    (canEditSale sale.status = true ↔
        (sale.status = "quote" ∨ sale.status = "reservation")) ∧
      (sale.status ≠ "quote" → editFlow sale p = (.error 403, sale)) ∧
      (sale.status = "quote" →
        editFlow sale p =
          (.ok (), { sale with
            items := p.items
            discount := p.discount
            shippingCost := p.shippingCost
            shippingMethod := p.shippingMethod })) := by
  refine ⟨?_, ?_, ?_⟩
  · simp [canEditSale, Bool.or_eq_true, beq_iff_eq]
  · intro h
    simp [editFlow, editSaleLoaderAllows, h]
  · intro h
    simp [editFlow, editSaleLoaderAllows, h, applyEdit]

/-- Witness for the amended C6: a `paid` sale is rejected unchanged, a
`quote` sale receives the payload. -/
theorem editability_guard_witness :
    editFlow ⟨"paid", [], 0, 0, ""⟩ ⟨[], 5, 7, "olva"⟩ =
        (.error 403, ⟨"paid", [], 0, 0, ""⟩) ∧
      editFlow ⟨"quote", [], 0, 0, ""⟩ ⟨[], 5, 7, "olva"⟩ =
        (.ok (), ⟨"quote", [], 5, 7, "olva"⟩) :=
  ⟨(editability_guard ⟨"paid", [], 0, 0, ""⟩ ⟨[], 5, 7, "olva"⟩).2.1 (by decide),
    (editability_guard ⟨"quote", [], 0, 0, ""⟩ ⟨[], 5, 7, "olva"⟩).2.2 rfl⟩

theorem netPaidOf_append (l : PayLedger) (a : ℚ) (r : Bool) :
    netPaidOf { l with entries := l.entries ++ [⟨a, r⟩] } =
      if r then netPaidOf l - a else netPaidOf l + a := by
  cases r <;>
    simp [netPaidOf, totalPaymentsOf, totalRefundsOf, List.filter_append,
      List.sum_append] <;>
    ring

theorem applyPayOp_saleTotal (l : PayLedger) (op : PayOp) :
    (applyPayOp l op).saleTotal = l.saleTotal := by
  cases op with
  | pay a =>
      by_cases c1 : a ≤ 0
      · simp [applyPayOp, addPayment, c1]
      · by_cases c2 : balanceOf l < a <;> simp [applyPayOp, addPayment, c1, c2]
  | refund a =>
      by_cases c1 : a ≤ 0
      · simp [applyPayOp, addRefund, c1]
      · by_cases c2 : netPaidOf l < a <;> simp [applyPayOp, addRefund, c1, c2]

theorem payWF_applyPayOp (l : PayLedger) (op : PayOp)
    (h1 : 0 ≤ netPaidOf l) (h2 : netPaidOf l ≤ l.saleTotal) :
    0 ≤ netPaidOf (applyPayOp l op) ∧
      netPaidOf (applyPayOp l op) ≤ (applyPayOp l op).saleTotal := by
  rw [applyPayOp_saleTotal]
  cases op with
  | pay a =>
      by_cases c1 : a ≤ 0
      · simpa [applyPayOp, addPayment, c1] using ⟨h1, h2⟩
      · by_cases c2 : balanceOf l < a
        · simpa [applyPayOp, addPayment, c1, c2] using ⟨h1, h2⟩
        · have hb : a ≤ l.saleTotal - netPaidOf l := by
            have := not_lt.mp c2
            simpa [balanceOf] using this
          have h0 := not_le.mp c1
          simp only [applyPayOp, addPayment, c1, c2, if_false]
          rw [netPaidOf_append]
          simp only [Bool.false_eq_true, reduceIte]
          constructor
          · linarith
          · linarith
  | refund a =>
      by_cases c1 : a ≤ 0
      · simpa [applyPayOp, addRefund, c1] using ⟨h1, h2⟩
      · by_cases c2 : netPaidOf l < a
        · simpa [applyPayOp, addRefund, c1, c2] using ⟨h1, h2⟩
        · have hb : a ≤ netPaidOf l := not_lt.mp c2
          have h0 := not_le.mp c1
          simp only [applyPayOp, addRefund, c1, c2, if_false]
          rw [netPaidOf_append]
          simp only [reduceIte]
          constructor
          · linarith
          · linarith

theorem payWF_runPayOps (l : PayLedger) (ops : List PayOp)
    (h1 : 0 ≤ netPaidOf l) (h2 : netPaidOf l ≤ l.saleTotal) :
    0 ≤ netPaidOf (runPayOps l ops) ∧
      netPaidOf (runPayOps l ops) ≤ (runPayOps l ops).saleTotal := by
  induction ops generalizing l with
  | nil => exact ⟨h1, h2⟩
  | cons op rest ih =>
      obtain ⟨g1, g2⟩ := payWF_applyPayOp l op h1 h2
      simpa [runPayOps] using ih (applyPayOp l op) g1 g2

/-- Claim C4: `addPayment` fails with `InvalidAmount` when `amount ≤ 0` and
with `ExceedsBalance` when `amount` exceeds the current balance, so
`netPaid` never exceeds `saleTotal`; `addRefund` fails with `InvalidAmount`
when `amount ≤ 0` and with `ExceedsNetPaid` when `amount` exceeds current
`netPaid`, so `netPaid` never becomes negative (the bound preservation is
stated for every sequence of ledger requests from a state satisfying the
ledger invariant). -/
theorem payment_ledger_bounds (l : PayLedger) (amount : ℚ) (ops : List PayOp) :
    (amount ≤ 0 → addPayment l amount = .error .invalidAmount) ∧
      (0 < amount → balanceOf l < amount →
        addPayment l amount = .error .exceedsBalance) ∧
      (amount ≤ 0 → addRefund l amount = .error .invalidAmount) ∧
      (0 < amount → netPaidOf l < amount →
        addRefund l amount = .error .exceedsNetPaid) ∧
      (0 ≤ netPaidOf l → netPaidOf l ≤ l.saleTotal →
        0 ≤ netPaidOf (runPayOps l ops) ∧
          netPaidOf (runPayOps l ops) ≤ (runPayOps l ops).saleTotal) := by
  refine ⟨?_, ?_, ?_, ?_, fun h1 h2 => payWF_runPayOps l ops h1 h2⟩
  · intro h
    simp [addPayment, h]
  · intro h0 hb
    simp [addPayment, not_le.mpr h0, hb]
  · intro h
    simp [addRefund, h]
  · intro h0 hn
    simp [addRefund, not_le.mpr h0, hn]

/-- Witness for C4 (spec scenario 4): a sale with total 200 and one payment
of 150 rejects a further payment of 60 with `ExceedsBalance`, and running
payment/refund requests keeps `netPaid` in `[0, saleTotal]`. -/
theorem payment_ledger_bounds_witness :
    addPayment ⟨200, [⟨150, false⟩]⟩ 60 = .error .exceedsBalance ∧
      (0 ≤ netPaidOf (runPayOps ⟨200, [⟨150, false⟩]⟩ [.pay 50, .refund 120]) ∧
        netPaidOf (runPayOps ⟨200, [⟨150, false⟩]⟩ [.pay 50, .refund 120]) ≤
          (runPayOps ⟨200, [⟨150, false⟩]⟩ [.pay 50, .refund 120]).saleTotal) :=
  ⟨(payment_ledger_bounds ⟨200, [⟨150, false⟩]⟩ 60 []).2.1 (by norm_num)
      (by norm_num [balanceOf, netPaidOf, totalPaymentsOf, totalRefundsOf]),
    (payment_ledger_bounds ⟨200, [⟨150, false⟩]⟩ 60 [.pay 50, .refund 120]).2.2.2.2
      (by norm_num [netPaidOf, totalPaymentsOf, totalRefundsOf])
      (by norm_num [netPaidOf, totalPaymentsOf, totalRefundsOf])⟩

/-- The permission flags of the sale-detail screen offer each transition
intent exactly at the from-status of the spec §4.3 table (supporting
evidence from src/ for the transition table). -/
theorem ui_flags_match_transition_table (st : SaleStatus) (pm : String) :
    ((statusString st == "quote") = allowedPair st .convertToPending) ∧
      ((statusString st == "pending") = allowedPair st (.markAsPaid (some pm))) ∧
      ((statusString st == "paid") = allowedPair st .startProcessing) ∧
      ((statusString st == "processing") = allowedPair st .markShipped) ∧
      ((statusString st == "shipped") = allowedPair st .markDelivered) ∧
      ((statusString st == "reservation") = allowedPair st .confirmReservation) ∧
      ((statusString st == "reservation") = allowedPair st .cancelReservation) ∧
      ((statusString st == "quote" || statusString st == "pending" ||
          statusString st == "paid" || statusString st == "processing" ||
          statusString st == "shipped") = allowedPair st .cancel) := by
  cases st <;> exact ⟨rfl, rfl, rfl, rfl, rfl, rfl, rfl, rfl⟩

/-- Claim C2: for every (status, action) pair not listed in the transition
table of spec §4.3, invoking that transition on a sale fails with
`InvalidTransition` and leaves both the Sale and the Product state
unchanged; in particular no transition is possible from the terminal states
`delivered`, `cancelled` and `rejected`. -/
theorem transition_closure (st : SaleMachineState) (balance : ℚ) (a : SmAction) :
    (allowedPair st.status a = false →
        smStep st balance a = (.error .invalidTransition, st)) ∧
      ∀ a2 : SmAction,
        allowedPair .delivered a2 = false ∧
          allowedPair .cancelled a2 = false ∧
          allowedPair .rejected a2 = false := by
  constructor
  · intro h
    obtain ⟨status, items, stocks⟩ := st
    cases a <;> cases status <;> simp_all [smStep, allowedPair]
  · intro a2
    cases a2 <;> exact ⟨rfl, rfl, rfl⟩

/-- Witness for C2: cancelling a delivered sale is rejected with
`InvalidTransition` and the state is returned unchanged. -/
theorem transition_closure_witness :
    smStep ⟨.delivered, [(1, 3)], fun _ => ⟨10, 0⟩⟩ 0 .cancel =
      (.error .invalidTransition, ⟨.delivered, [(1, 3)], fun _ => ⟨10, 0⟩⟩) :=
  (transition_closure ⟨.delivered, [(1, 3)], fun _ => ⟨10, 0⟩⟩ 0 .cancel).1 rfl

theorem reserveItems_not_mem (stocks : Nat → StockState)
    (items : List (Nat × Nat)) (p : Nat) (hp : p ∉ items.map Prod.fst) :
    reserveItems stocks items p = stocks p := by
  induction items generalizing stocks with
  | nil => rfl
  | cons hd tl ih =>
      simp only [List.map_cons, List.mem_cons, not_or] at hp
      obtain ⟨hne, hrest⟩ := hp
      simp only [reserveItems, List.foldl_cons] at *
      rw [ih _ hrest]
      simp [updateAt, hne]

theorem reserveItems_reserved (stocks : Nat → StockState)
    (items : List (Nat × Nat)) (hnd : (items.map Prod.fst).Nodup)
    (hav : ∀ pq ∈ items, itemHasStock stocks pq = true) :
    ∀ pq ∈ items,
      (reserveItems stocks items pq.1).reserved = (stocks pq.1).reserved + pq.2 := by
  induction items generalizing stocks with
  | nil => intro pq h; cases h
  | cons hd tl ih =>
      simp only [List.map_cons, List.nodup_cons] at hnd
      obtain ⟨hhd, htl⟩ := hnd
      have hav_hd := hav hd (List.mem_cons_self hd tl)
      have hstep : ∀ p, (updateAt stocks hd.1
          (fun s => applyOp s (.reserve hd.2)) p) =
            if p = hd.1 then
              { stocks hd.1 with reserved := (stocks hd.1).reserved + hd.2 }
            else stocks p := by
        intro p
        by_cases hp : p = hd.1
        · have hok : ¬((stocks hd.1).stock - (stocks hd.1).reserved < (hd.2 : Int)) := by
            simp only [itemHasStock, decide_eq_true_eq] at hav_hd
            omega
          simp [updateAt, hp, applyOp, reserve, hok]
        · simp [updateAt, hp]
      intro pq hpq
      rcases List.mem_cons.mp hpq with heq | hmem
      · subst heq
        simp only [reserveItems, List.foldl_cons]
        rw [show (List.foldl
            (fun acc pq => updateAt acc pq.1 fun s => applyOp s (.reserve pq.2)) _ tl) =
            reserveItems (updateAt stocks pq.1 fun s => applyOp s (.reserve pq.2)) tl
          from rfl]
        rw [reserveItems_not_mem _ tl pq.1 hhd]
        rw [hstep pq.1]
        simp
      · have hne : pq.1 ≠ hd.1 := by
          intro hcontra
          apply hhd
          rw [← hcontra]
          exact List.mem_map_of_mem Prod.fst hmem
        have hav' : ∀ pq' ∈ tl,
            itemHasStock (updateAt stocks hd.1 (fun s => applyOp s (.reserve hd.2))) pq' =
              true := by
          intro pq' hpq'
          have hne' : pq'.1 ≠ hd.1 := by
            intro hcontra
            apply hhd
            rw [← hcontra]
            exact List.mem_map_of_mem Prod.fst hpq'
          have := hav pq' (List.mem_cons_of_mem hd hpq')
          simpa [itemHasStock, hstep pq'.1, hne'] using this
        have := ih (updateAt stocks hd.1 (fun s => applyOp s (.reserve hd.2)))
          htl hav' pq hmem
        simp only [reserveItems, List.foldl_cons]
        rw [show (List.foldl
            (fun acc pq => updateAt acc pq.1 fun s => applyOp s (.reserve pq.2))
            (updateAt stocks hd.1 fun s => applyOp s (.reserve hd.2)) tl) =
            reserveItems (updateAt stocks hd.1 fun s => applyOp s (.reserve hd.2)) tl
          from rfl]
        rw [this]
        rw [hstep pq.1]
        simp [hne]

/-- Claim C5: converting a quote to a pending sale succeeds (reserving the
quantity of every line item) only when `checkAvailability` reports every
item fully available; otherwise the conversion fails with
`InsufficientStock` and no stock is reserved.  The per-line reservation
effect is stated for sales whose line items reference pairwise distinct
products (the sale data model keys one line per product reference). -/
theorem convert_to_pending_availability (st : SaleMachineState) (balance : ℚ)
    (hq : st.status = .quote) :
    (checkAvailability st.stocks st.items = false →
        smStep st balance .convertToPending = (.error .insufficientStock, st)) ∧
      (checkAvailability st.stocks st.items = true →
        (smStep st balance .convertToPending).1 = .ok () ∧
          (smStep st balance .convertToPending).2.status = .pending ∧
          ((st.items.map Prod.fst).Nodup →
            ∀ pq ∈ st.items,
              ((smStep st balance .convertToPending).2.stocks pq.1).reserved =
                (st.stocks pq.1).reserved + pq.2)) := by
  obtain ⟨status, items, stocks⟩ := st
  cases hq
  constructor
  · intro h
    simp [smStep, h]
  · intro h
    refine ⟨by simp [smStep, h], by simp [smStep, h], ?_⟩
    intro hnd pq hpq
    have hav : ∀ pq' ∈ items, itemHasStock stocks pq' = true := by
      intro pq' hpq'
      exact List.all_eq_true.mp h pq' hpq'
    have := reserveItems_reserved stocks items hnd hav pq hpq
    simpa [smStep, h] using this

/-- Witness for C5: a quote for 3 units of product 1 with 10 in stock
converts successfully and ends with 3 units reserved. -/
theorem convert_to_pending_availability_witness :
    (smStep ⟨.quote, [(1, 3)], fun _ => ⟨10, 0⟩⟩ 0 .convertToPending).1 = .ok () ∧
      ((smStep ⟨.quote, [(1, 3)], fun _ => ⟨10, 0⟩⟩ 0 .convertToPending).2.stocks 1).reserved =
        (((fun _ => ⟨10, 0⟩ : Nat → StockState) 1).reserved + 3) := by
  have h := (convert_to_pending_availability
    ⟨.quote, [(1, 3)], fun _ => ⟨10, 0⟩⟩ 0 rfl).2 (by decide)
  exact ⟨h.1, h.2.2 (by decide) (1, 3) (by decide)⟩

theorem aggregate_foldl (acc : AggregatedSale) (linked : List SaleDoc) :
    (linked.foldl aggAdd acc).total = acc.total + (linked.map SaleDoc.total).sum ∧
      (linked.foldl aggAdd acc).subtotal =
        acc.subtotal + (linked.map SaleDoc.subtotal).sum ∧
      (linked.foldl aggAdd acc).discount =
        acc.discount + (linked.map SaleDoc.discount).sum ∧
      (linked.foldl aggAdd acc).shippingCost =
        acc.shippingCost + (linked.map SaleDoc.shippingCost).sum ∧
      (linked.foldl aggAdd acc).items = acc.items ++ (linked.map SaleDoc.items).flatten := by
  induction linked generalizing acc with
  | nil => simp
  | cons s rest ih =>
      obtain ⟨h1, h2, h3, h4, h5⟩ := ih (aggAdd acc s)
      refine ⟨?_, ?_, ?_, ?_, ?_⟩
      · rw [List.foldl_cons, h1]
        simp [aggAdd, add_assoc]
      · rw [List.foldl_cons, h2]
        simp [aggAdd, add_assoc]
      · rw [List.foldl_cons, h3]
        simp [aggAdd, add_assoc]
      · rw [List.foldl_cons, h4]
        simp [aggAdd, add_assoc]
      · rw [List.foldl_cons, h5]
        simp [aggAdd]

/-- Claim C8: for every parent sale and every list of linked sales, the
aggregated view for combined receipts/printing concatenates the parent's
and all linked sales' items, and its combined total equals `parent.total`
plus the sum of the linked sales' totals, with subtotal, discount and
shipping cost each summed independently in the same way. -/
theorem linked_aggregation_additivity (parent : SaleDoc) (linked : List SaleDoc) :
    (aggregate parent linked).total = parent.total + (linked.map SaleDoc.total).sum ∧
      (aggregate parent linked).subtotal =
        parent.subtotal + (linked.map SaleDoc.subtotal).sum ∧
      (aggregate parent linked).discount =
        parent.discount + (linked.map SaleDoc.discount).sum ∧
      (aggregate parent linked).shippingCost =
        parent.shippingCost + (linked.map SaleDoc.shippingCost).sum ∧
      (aggregate parent linked).items =
        parent.items ++ (linked.map SaleDoc.items).flatten := by
  have h := aggregate_foldl (aggInit parent) linked
  simpa [aggregate, aggInit] using h

end StoreAdmin
